import Mathlib

/-! Shallow embedding of the `person-service` repository (Go + PostgreSQL) in Lean 4,
with theorems settling the specification claims.

Modelled components:
* `Person` — `internal/domain.Person` (Go struct; machine time stamps as `Int`).
* The repository layer `internal/repository/person_repository.go`:
  `Create`, `GetById`, `GetAll` (dynamic filter construction + count/select
  queries), `Update`, `Delete`; SQL `ILIKE` patterns are given their standard
  semantics (`%` any run, `_` any one char, case-insensitive comparison).
* The service layer `internal/service/person_service.go`: validation,
  concurrent enrichment fan-out/fan-in (modelled as an arbitrary completion
  order of the three tasks), error translation.
* The handler layer `internal/handler/person_handler.go`: request parsing,
  pagination defaults and clamping, patronymic presence mapping.
* Go error wrapping (`fmt.Errorf("..: %w", err)`) and `errors.Is` as an
  inductive error type with an unwrap-chain test.
-/

namespace PersonSvc

/-- The Go struct `domain.Person`. `Patronymic *string` becomes `Option String`;
`CreatedAt time.Time` is abstracted as an integer instant. -/
structure Person where
  id : Int
  name : String
  surname : String
  patronymic : Option String
  age : Int
  gender : String
  nationality : String
  createdAt : Int
deriving Repr, DecidableEq

/-- The recognized filter keys of the Go `map[string]interface{}` filter set:
`name`, `surname`, `age`, `gender`, `nationality`. A `none` field is an absent
key. Unrecognized keys are ignored by the Go code, hence not represented. -/
structure Filters where
  name : Option String
  surname : Option String
  age : Option Int
  gender : Option String
  nationality : Option String
deriving Repr, DecidableEq

/-- The empty filter set. -/
def Filters.empty : Filters := ⟨none, none, none, none, none⟩

/-! ### SQL `ILIKE` semantics

`person_repository.go` builds conditions `col ILIKE $i` with argument
`"%" ++ v ++ "%"`. PostgreSQL `ILIKE` matches a pattern where `%` matches any
character sequence, `_` matches any single character, and other characters
compare case-insensitively. -/

/-- Whether `f` holds of some suffix of `s` (including `s`
itself and the empty suffix)? -/
def suffixAny (f : List Char → Bool) : List Char → Bool
  | [] => f []
  | c :: s => f (c :: s) || suffixAny f s

/-- Case-insensitive SQL LIKE matching of a pattern (first argument) against a
subject string (second argument), both as character lists: `%` matches any
character run (the rest of the pattern must match some suffix), `_` matches
exactly one character, the default escape character `\` strips the following
pattern character of any special meaning (it is then compared literally,
case-insensitively), and any other pattern character matches one subject
character case-insensitively. A pattern ending in a lone escape character is
an error in PostgreSQL (the query fails); the model lets it match no row,
a case unreachable from the wildcard-free values the theorems use. -/
def likeMatch : List Char → List Char → Bool
  | [], s => s.isEmpty
  | p :: ps, s =>
    if p = '%' then suffixAny (likeMatch ps) s
    else if p = '\\' then
      match ps, s with
      | [], _ => false
      | _ :: _, [] => false
      | e :: ps', c :: s' => (e.toLower = c.toLower) && likeMatch ps' s'
    else
      match s with
      | [] => false
      | c :: s' => (if p = '_' then true else p.toLower = c.toLower) && likeMatch ps s'

/-- String-level `subject ILIKE pattern`. -/
def ilike (subject pattern : String) : Bool :=
  likeMatch pattern.data subject.data

/-- One dynamically built SQL predicate of `PersonRepository.GetAll`.
The constructors are listed in the order the Go code checks the filter keys. -/
inductive Pred where
  | nameILike (v : String)
  | surnameILike (v : String)
  | ageEq (v : Int)
  | genderEq (v : String)
  | natILike (v : String)
deriving Repr, DecidableEq

/-- A positional SQL argument (`args` is `[]interface{}` in Go; only strings
and ints are ever appended). -/
inductive Arg where
  | s (v : String)
  | i (v : Int)
deriving Repr, DecidableEq

/-- The condition list `conditions` built by `PersonRepository.GetAll`,
in the source's key-check order. -/
def buildConds (f : Filters) : List Pred :=
  (match f.name with | some v => [Pred.nameILike v] | none => []) ++
  (match f.surname with | some v => [Pred.surnameILike v] | none => []) ++
  (match f.age with | some v => [Pred.ageEq v] | none => []) ++
  (match f.gender with | some v => [Pred.genderEq v] | none => []) ++
  (match f.nationality with | some v => [Pred.natILike v] | none => [])

/-- The SQL text of one condition, given its 1-based placeholder index. -/
def predSql (p : Pred) (idx : Nat) : String :=
  match p with
  | .nameILike _ => "name ILIKE $" ++ toString idx
  | .surnameILike _ => "surname ILIKE $" ++ toString idx
  | .ageEq _ => "age = $" ++ toString idx
  | .genderEq _ => "gender = $" ++ toString idx
  | .natILike _ => "nationality ILIKE $" ++ toString idx

/-- The positional argument appended for one condition (`"%"+v+"%"` for the
ILIKE conditions, the raw value otherwise). -/
def predArg (p : Pred) : Arg :=
  match p with
  | .nameILike v => .s ("%" ++ v ++ "%")
  | .surnameILike v => .s ("%" ++ v ++ "%")
  | .ageEq v => .i v
  | .genderEq v => .s v
  | .natILike v => .s ("%" ++ v ++ "%")

/-- The predicate argument list shared by both queries (`args` before
`limit`/`offset` are appended; `countArgs` aliases exactly this list). -/
def condArgs (f : Filters) : List Arg :=
  (buildConds f).map predArg

/-- The ` WHERE ...` clause shared by the selection and count queries
(empty when no condition was built). -/
def whereClause (f : Filters) : String :=
  let conds := buildConds f
  if conds.isEmpty then ""
  else " WHERE " ++ String.intercalate " AND "
    (conds.enum.map fun pi => predSql pi.2 (pi.1 + 1))

/-- The final text of the selection query built by `GetAll`. -/
def selectQueryStr (f : Filters) : String :=
  "SELECT id, name, surname, patronymic, age, gender, nationality, created_at FROM people"
    ++ whereClause f
    ++ " ORDER BY created_at DESC LIMIT $" ++ toString ((buildConds f).length + 1)
    ++ " OFFSET $" ++ toString ((buildConds f).length + 2)

/-- The final text of the count query built by `GetAll`. -/
def countQueryStr (f : Filters) : String :=
  "SELECT COUNT(*) FROM people" ++ whereClause f

/-- The argument list passed to the selection query (predicate args, then
`limit`, then `offset`). -/
def selectArgs (f : Filters) (limit offset : Int) : List Arg :=
  condArgs f ++ [.i limit, .i offset]

/-- Evaluation of one predicate on a row, per PostgreSQL semantics. -/
def evalPred (r : Person) : Pred → Bool
  | .nameILike v => ilike r.name ("%" ++ v ++ "%")
  | .surnameILike v => ilike r.surname ("%" ++ v ++ "%")
  | .ageEq v => r.age == v
  | .genderEq v => r.gender == v
  | .natILike v => ilike r.nationality ("%" ++ v ++ "%")

/-- Conjunction (`AND`) of the built predicates on a row; an empty condition
list constrains nothing. -/
def evalConds (conds : List Pred) (r : Person) : Bool :=
  conds.all (evalPred r)

/-- Structured form of either query executed by `GetAll`: shared predicate
list, whether `ORDER BY created_at DESC` is present, and the optional
`LIMIT`/`OFFSET` pair. -/
structure SelectSpec where
  conds : List Pred
  orderByCreatedDesc : Bool
  limitOffset : Option (Int × Int)
deriving Repr, DecidableEq

/-- The structured selection query of `GetAll`. -/
def selectSpec (f : Filters) (limit offset : Int) : SelectSpec :=
  { conds := buildConds f, orderByCreatedDesc := true, limitOffset := some (limit, offset) }

/-- The structured count query of `GetAll`. -/
def countSpec (f : Filters) : SelectSpec :=
  { conds := buildConds f, orderByCreatedDesc := false, limitOffset := none }

/-- Row-set semantics of a structured query over the `people` table:
filter by the predicates, then (for the selection query) sort newest-first
and apply `OFFSET`/`LIMIT`. -/
def runSelect (table : List Person) (q : SelectSpec) : List Person :=
  let m := table.filter (fun r => evalConds q.conds r)
  let m := if q.orderByCreatedDesc
    then m.mergeSort (fun a b => decide (b.createdAt ≤ a.createdAt))
    else m
  match q.limitOffset with
  | some lo => (m.drop lo.2.toNat).take lo.1.toNat
  | none => m

/-- Model of `PersonRepository.GetAll`: runs the count query, then the selection query,
and returns the page of rows together with the total count. -/
def repoGetAll (table : List Person) (f : Filters) (limit offset : Int) :
    List Person × Int :=
  let total := (runSelect table (countSpec f)).length
  let people := runSelect table (selectSpec f limit offset)
  (people, total)

/-- The number of table rows matching the filter set. -/
def countMatching (table : List Person) (f : Filters) : Nat :=
  (table.filter (fun r => evalConds (buildConds f) r)).length

/-! ### Go errors, wrapping and `errors.Is` -/

/-- A Go `error` value as this repository produces them: the two sentinel
errors (`repository.ErrNotFound`, `pgx.ErrNoRows`), arbitrary other error
values, and `fmt.Errorf("<context>: %w", inner)` wrapping. -/
inductive GoErr where
  | notFound
  | pgNoRows
  | msg (s : String)
  | wrap (context : String) (inner : GoErr)
deriving Repr, DecidableEq

/-- An `Except` value as a sum, for deciding equality. -/
def exceptToSum {ε α : Type} : Except ε α → ε ⊕ α
  | .error e => .inl e
  | .ok a => .inr a

instance {ε α : Type} [DecidableEq ε] [DecidableEq α] :
    DecidableEq (Except ε α) := fun a b =>
  decidable_of_iff (exceptToSum a = exceptToSum b)
    (by cases a <;> cases b <;> simp [exceptToSum])

/-- Go `errors.Is`: the error equals the target, or the target is reachable
by unwrapping `%w` wrapping. -/
def errorsIs (e target : GoErr) : Bool :=
  e == target ||
    match e with
    | .wrap _ inner => errorsIs inner target
    | _ => false

/-! ### Repository single-record operations

The database itself is external; its deterministic behaviour on an in-memory
table is modelled directly, and the repository's translation of raw driver
errors is modelled as a function of the raw outcome. -/

/-- Raw outcome of `QueryRow(...).Scan` for `GetById` on a pure table:
`pgx.ErrNoRows` when no row has the identifier. -/
def dbGetById (table : List Person) (id : Int) : Except GoErr Person :=
  match table.find? (fun r => r.id == id) with
  | some p => .ok p
  | none => .error .pgNoRows

/-- Error translation of `PersonRepository.GetById`: `pgx.ErrNoRows` becomes
`ErrNotFound`; every other error is wrapped with context. -/
def repoGetById (raw : Except GoErr Person) : Except GoErr Person :=
  match raw with
  | .ok p => .ok p
  | .error e =>
    if errorsIs e .pgNoRows then .error .notFound
    else .error (.wrap "failed to get person" e)

/-- The full-replace of every mutable column performed by the repository's
`UPDATE ... SET name, surname, patronymic, age, gender, nationality WHERE id`:
`id` and `created_at` are untouched. -/
def applyUpdate (r p : Person) : Person :=
  { r with name := p.name, surname := p.surname, patronymic := p.patronymic,
           age := p.age, gender := p.gender, nationality := p.nationality }

/-- Model of `PersonRepository.Update`: executes the full-column update; when zero rows
were affected returns `ErrNotFound`, otherwise the updated table. -/
def repoUpdate (table : List Person) (id : Int) (p : Person) :
    Except GoErr (List Person) :=
  let table' := table.map (fun r => if r.id == id then applyUpdate r p else r)
  let affected := (table.filter (fun r => r.id == id)).length
  if affected == 0 then .error .notFound else .ok table'

/-- Model of `PersonRepository.Delete`: deletes by identifier; zero rows affected is
`ErrNotFound`. -/
def repoDelete (table : List Person) (id : Int) :
    Except GoErr (List Person) :=
  let affected := (table.filter (fun r => r.id == id)).length
  if affected == 0 then .error .notFound
  else .ok (table.filter (fun r => !(r.id == id)))

/-- The service layer's shared error translation (`GetById`, `Update`,
`Delete` all use it): a not-found error (tested with `errors.Is`) is
propagated unchanged; any other failure is wrapped with the given context. -/
def serviceTranslate (context : String) (res : Except GoErr α) :
    Except GoErr α :=
  match res with
  | .ok a => .ok a
  | .error e =>
    if errorsIs e .notFound then .error e
    else .error (.wrap context e)

/-- Model of `PersonService.GetById` over a raw repository outcome. -/
def serviceGetById (repoRes : Except GoErr Person) : Except GoErr Person :=
  serviceTranslate "failed to get person" repoRes

/-- Model of `PersonService.Update` over a raw repository outcome. -/
def serviceUpdate (repoRes : Except GoErr (List Person)) :
    Except GoErr (List Person) :=
  serviceTranslate "failed to update person" repoRes

/-- Model of `PersonService.Delete` over a raw repository outcome. -/
def serviceDelete (repoRes : Except GoErr (List Person)) :
    Except GoErr (List Person) :=
  serviceTranslate "failed to delete person" repoRes

/-! ### Repository state and `Create` -/

/-- The mutable database state: the `people` table, the next value of the
`SERIAL` id column, and the server clock used for `created_at DEFAULT`. -/
structure RepoState where
  nextId : Int
  clock : Int
  rows : List Person
deriving Repr, DecidableEq

/-- The row actually inserted by the repository's `INSERT`: the handed
record's columns with the generated `id` and the server-assigned
`created_at`. -/
def insertedRow (st : RepoState) (p : Person) : Person :=
  { p with id := st.nextId, createdAt := st.clock }

/-- Model of `PersonRepository.Create`: inserts one row (columns name, surname,
patronymic, age, gender, nationality; `id` generated, `created_at`
server-assigned) and returns the generated identifier. -/
def repoCreate (st : RepoState) (p : Person) : Int × RepoState :=
  (st.nextId,
   { nextId := st.nextId + 1, clock := st.clock,
     rows := st.rows ++ [insertedRow st p] })

/-! ### Concurrent enrichment fan-out/fan-in -/

/-- The outcome of the three independent enrichment lookups
(`GetAge`, `GetGender`, `GetNationality`): each either a value or an error. -/
structure EnrichOutcome where
  age : Except String Int
  gender : Except String String
  nationality : Except String String

/-- One of the three enrichment goroutines launched by
`PersonService.Create`. -/
inductive Task where
  | age
  | gender
  | nationality
deriving Repr, DecidableEq

/-- The body of one enrichment goroutine: on lookup success it writes its own
field of the shared record; on failure it only logs, leaving the record
untouched. -/
def runTask (env : EnrichOutcome) (t : Task) (p : Person) : Person :=
  match t with
  | .age =>
    match env.age with
    | .ok a => { p with age := a }
    | .error _ => p
  | .gender =>
    match env.gender with
    | .ok g => { p with gender := g }
    | .error _ => p
  | .nationality =>
    match env.nationality with
    | .ok n => { p with nationality := n }
    | .error _ => p

/-- Execution of the goroutines in some completion order (each task's single
field write is atomic and the fields are disjoint, so task-level
sequentialization is faithful). -/
def runTasks (env : EnrichOutcome) (sched : List Task) (p : Person) : Person :=
  sched.foldl (fun q t => runTask env t q) p

/-- The record all three goroutines have produced once `wg.Wait()` returns,
written with the canonical order. -/
def mergeEnrichment (env : EnrichOutcome) (p : Person) : Person :=
  runTasks env [Task.age, Task.gender, Task.nationality] p

/-- Observable side effects of `PersonService.Create`. -/
inductive Effect where
  | lookupAge
  | lookupGender
  | lookupNationality
  | storeCreate
deriving Repr, DecidableEq

/-- The lookup effect a task issues. -/
def taskEffect : Task → Effect
  | .age => .lookupAge
  | .gender => .lookupGender
  | .nationality => .lookupNationality

/-- Model of `PersonService.Create`: validates name and surname before any other
activity; then launches the three lookups (completing in the order `sched`),
waits on the `WaitGroup` barrier, and hands the merged record to the store.
Returns the result together with the trace of issued effects. -/
def serviceCreate (env : EnrichOutcome) (sched : List Task) (st : RepoState)
    (p : Person) : Except GoErr (Int × RepoState) × List Effect :=
  if p.name = "" ∨ p.surname = "" then
    (.error (.msg "name and surname are required"), [])
  else
    let merged := runTasks env sched p
    let r := repoCreate st merged
    (.ok r, sched.map taskEffect ++ [.storeCreate])

/-! ### Handler layer -/

/-- The request struct `domain.CreatePersonRequest` after JSON binding (an omitted patronymic is
the empty string, Go's zero value). -/
structure CreatePersonRequest where
  name : String
  surname : String
  patronymic : String
deriving Repr, DecidableEq

/-- The request struct `domain.UpdatePersonRequest` after JSON binding: every omitted field is
its Go zero value. -/
structure UpdatePersonRequest where
  name : String
  surname : String
  patronymic : String
  age : Int
  gender : String
  nationality : String
deriving Repr, DecidableEq

/-- The handlers' patronymic mapping: an empty request string becomes a nil
pointer (absent), a non-empty one a present pointer. -/
def patronymicPtr (s : String) : Option String :=
  if s = "" then none else some s

/-- The `domain.Person` value `PersonHandler.CreatePerson` builds from the
request (every unset field at its zero value). -/
def mkCreatePerson (req : CreatePersonRequest) : Person :=
  { id := 0, name := req.name, surname := req.surname,
    patronymic := patronymicPtr req.patronymic,
    age := 0, gender := "", nationality := "", createdAt := 0 }

/-- The `domain.Person` value `PersonHandler.Update` builds from the
request. -/
def mkUpdatePerson (req : UpdatePersonRequest) : Person :=
  { id := 0, name := req.name, surname := req.surname,
    patronymic := patronymicPtr req.patronymic,
    age := req.age, gender := req.gender, nationality := req.nationality,
    createdAt := 0 }

/-- Model of `PersonHandler.Update` end to end over a pure table: builds the
replacement record, calls the service (which calls the repository), and on
success responds `200 OK` echoing the record it built; the pair is the
response body outcome and the resulting table. -/
def handlerUpdate (table : List Person) (id : Int) (req : UpdatePersonRequest) :
    Except GoErr Person × List Person :=
  let person := mkUpdatePerson req
  match serviceUpdate (repoUpdate table id person) with
  | .ok table' => (.ok person, table')
  | .error e => (.error e, table)

/-- Decimal digits to a natural number. -/
def digitsToNat (l : List Char) : Nat :=
  l.foldl (fun acc c => acc * 10 + (c.toNat - '0'.toNat)) 0

/-- The largest Go `int` on a 64-bit platform. -/
def goIntMax : Int := 9223372036854775807

/-- The smallest Go `int` on a 64-bit platform. -/
def goIntMin : Int := -9223372036854775808

/-- Go `strconv.Atoi` on a 64-bit platform: an optional sign followed by at
least one digit; a value outside the `int` range fails with `ErrRange`
(Atoi returns a non-nil error, which the handler treats as a parse
failure). -/
def atoi (s : String) : Option Int :=
  match s.data with
  | [] => none
  | c :: rest =>
    if c = '+' then
      if !rest.isEmpty && rest.all Char.isDigit then
        if (digitsToNat rest : Int) ≤ goIntMax
        then some (digitsToNat rest) else none
      else none
    else if c = '-' then
      if !rest.isEmpty && rest.all Char.isDigit then
        if goIntMin ≤ -(digitsToNat rest : Int)
        then some (-(digitsToNat rest : Int)) else none
      else none
    else if (c :: rest).all Char.isDigit then
      if (digitsToNat (c :: rest) : Int) ≤ goIntMax
      then some (digitsToNat (c :: rest)) else none
    else none

/-- The raw query parameters of `GET /api/people` (a `none` parameter is
absent from the URL; gin's `c.Query` then yields `""`). -/
structure GetAllQuery where
  page : Option String
  page_size : Option String
  name : Option String
  surname : Option String
  age : Option String
  gender : Option String
  nationality : Option String
deriving Repr, DecidableEq

/-- gin `c.Query`: the raw value, or `""` when absent. -/
def queryStr (v : Option String) : String := v.getD ""

/-- gin `c.DefaultQuery`: the raw value, or the given default when absent. -/
def defaultQuery (v : Option String) (d : String) : String := v.getD d

/-- Outcome of `PersonHandler.GetAll`: a `400` client error, or a `200`
response carrying data and pagination metadata; paired with whether the
service was invoked. -/
inductive GetAllOutcome where
  | badRequest (errMsg : String)
  | ok (data : List Person) (page pageSize : Int) (totalItems : Int)
deriving Repr, DecidableEq

/-- The page number parsed by `PersonHandler.GetAll`: parse failure or a
value below 1 silently becomes the default 1. -/
def parsePage (q : GetAllQuery) : Int :=
  match atoi (defaultQuery q.page "1") with
  | none => 1
  | some n => if n < 1 then 1 else n

/-- The page size before clamping: parse failure or a value below 1 becomes
the default 10. -/
def parsePageSizeRaw (q : GetAllQuery) : Int :=
  match atoi (defaultQuery q.page_size "10") with
  | none => 10
  | some n => if n < 1 then 10 else n

/-- The page size parsed by `PersonHandler.GetAll`: after defaulting, values
above 100 are clamped to 100. -/
def parsePageSize (q : GetAllQuery) : Int :=
  if parsePageSizeRaw q > 100 then 100 else parsePageSizeRaw q

/-- The handler's treatment of the `age` query parameter: absent or empty
adds no filter; numeric adds the parsed filter; anything else is the client
error. -/
def parseAgeFilter (q : GetAllQuery) : Except String (Option Int) :=
  if queryStr q.age = "" then .ok none
  else
    match atoi (queryStr q.age) with
    | some a => .ok (some a)
    | none => .error "Invalid age format"

/-- The filter set `PersonHandler.GetAll` builds from the query: empty-string
parameters are not added; a non-empty, non-numeric `age` is a client error. -/
def parseFilters (q : GetAllQuery) : Except String Filters :=
  match parseAgeFilter q with
  | .error e => .error e
  | .ok ageF =>
    .ok { name := if queryStr q.name = "" then none else some (queryStr q.name),
          surname := if queryStr q.surname = "" then none else some (queryStr q.surname),
          age := ageF,
          gender := if queryStr q.gender = "" then none else some (queryStr q.gender),
          nationality := if queryStr q.nationality = "" then none else some (queryStr q.nationality) }

/-- Model of `PersonService.GetAll`: normalizes page and page size, computes the
window, delegates to the repository with the filter set unmodified. -/
def serviceGetAll (table : List Person) (f : Filters) (page pageSize : Int) :
    List Person × Int :=
  let page := if page < 1 then 1 else page
  let pageSize := if pageSize < 1 then 10 else pageSize
  let limit := pageSize
  let offset := (page - 1) * pageSize
  repoGetAll table f limit offset

/-- Model of `PersonHandler.GetAll` end to end over a pure table; the Bool records
whether the service was invoked. -/
def handlerGetAll (table : List Person) (q : GetAllQuery) :
    GetAllOutcome × Bool :=
  let page := parsePage q
  let pageSize := parsePageSize q
  match parseFilters q with
  | .error e => (.badRequest e, false)
  | .ok f =>
    let r := serviceGetAll table f page pageSize
    (.ok r.1 page pageSize r.2, true)

/-! ### Patronymic scanning in `GetAll` -/

/-- Go `sql.NullString`. -/
structure NullString where
  valid : Bool
  str : String
deriving Repr, DecidableEq

/-- Scanning the nullable `patronymic` column into a `sql.NullString`:
a database `NULL` (modelled as `none`) gives `Valid = false`; a stored value
`v` (including the empty string) gives `Valid = true` and `String = v`. -/
def scanNullString (dbValue : Option String) : NullString :=
  match dbValue with
  | none => { valid := false, str := "" }
  | some v => { valid := true, str := v }

/-- The patronymic of a `GetAll` result row: the pointer is set only when the
`NullString` is valid (`if patronymic.Valid { person.Patronymic = &... }`). -/
def scannedPatronymic (dbValue : Option String) : Option String :=
  let ns := scanNullString dbValue
  if ns.valid then some ns.str else none

/-! ### Spec-side definitions (for refinement comparison only)

These follow the specification's words, to be compared against the
definitions translated from the source. -/

/-- Lower-casing of a character list. -/
def lowerL (l : List Char) : List Char := l.map Char.toLower

/-- Spec-side: "the stored value contains the filter value anywhere,
case-insensitively". -/
def containsCI (hay needle : String) : Prop :=
  lowerL needle.data <:+: lowerL hay.data

instance (hay needle : String) : Decidable (containsCI hay needle) :=
  inferInstanceAs (Decidable (lowerL needle.data <:+: lowerL hay.data))

/-- Spec-side row-match predicate for a filter set, following the spec's
words: case-insensitive substring match on name/surname/nationality, exact
equality on age and gender, conjunction over present keys, no constraint for
absent keys. -/
def specMatches (f : Filters) (r : Person) : Prop :=
  (∀ v ∈ f.name, containsCI r.name v) ∧
  (∀ v ∈ f.surname, containsCI r.surname v) ∧
  (∀ v ∈ f.age, r.age = v) ∧
  (∀ v ∈ f.gender, r.gender = v) ∧
  (∀ v ∈ f.nationality, containsCI r.nationality v)

/-- A string free of the SQL pattern metacharacters: the wildcards `%` and
`_` and the default escape character `\`. -/
def wildcardFree (s : String) : Prop :=
  ∀ c ∈ s.data, c ≠ '%' ∧ c ≠ '_' ∧ c ≠ '\\'

/-- A filter set whose string-matched values are wildcard-free. -/
def Filters.wcFree (f : Filters) : Prop :=
  (∀ v ∈ f.name, wildcardFree v) ∧
  (∀ v ∈ f.surname, wildcardFree v) ∧
  (∀ v ∈ f.nationality, wildcardFree v)

/-! ### Theory of `likeMatch` -/

theorem suffixAny_eq_any_tails (f : List Char → Bool) (s : List Char) :
    suffixAny f s = s.tails.any f := by
  induction s with
  | nil => simp [suffixAny, List.tails]
  | cons c s ih => simp [suffixAny, List.tails_cons, ih]

theorem suffixAny_iff (f : List Char → Bool) (s : List Char) :
    suffixAny f s = true ↔ ∃ t, t <:+ s ∧ f t = true := by
  rw [suffixAny_eq_any_tails, List.any_eq_true]
  constructor
  · rintro ⟨t, ht, hf⟩
    exact ⟨t, (List.mem_tails t s).mp ht, hf⟩
  · rintro ⟨t, ht, hf⟩
    exact ⟨t, (List.mem_tails t s).mpr ht, hf⟩

theorem likeMatch_pct_cons (ps : List Char) (s : List Char) :
    likeMatch ('%' :: ps) s = true ↔ ∃ t, t <:+ s ∧ likeMatch ps t = true := by
  rw [show likeMatch ('%' :: ps) s = suffixAny (likeMatch ps) s from by
    rw [likeMatch.eq_def]
    dsimp only
    rw [if_pos rfl]]
  exact suffixAny_iff _ _

theorem likeMatch_pct_single (s : List Char) : likeMatch ['%'] s = true := by
  rw [likeMatch_pct_cons]
  exact ⟨[], List.nil_suffix, by decide⟩

theorem likeMatch_plain_nil (a : Char) (ps : List Char)
    (ha1 : a ≠ '%') (ha3 : a ≠ '\\') :
    likeMatch (a :: ps) [] = false := by
  rw [likeMatch.eq_def]
  dsimp only
  rw [if_neg ha1, if_neg ha3]

theorem likeMatch_plain_cons (a : Char) (ps : List Char) (c : Char)
    (s' : List Char) (ha1 : a ≠ '%') (ha3 : a ≠ '\\') :
    likeMatch (a :: ps) (c :: s') =
      ((if a = '_' then true else a.toLower = c.toLower) &&
        likeMatch ps s') := by
  rw [likeMatch.eq_def]
  dsimp only
  rw [if_neg ha1, if_neg ha3]

theorem likeMatch_append_wcFree (v : List Char)
    (hv : ∀ c ∈ v, c ≠ '%' ∧ c ≠ '_' ∧ c ≠ '\\') (ps : List Char)
    (s : List Char) :
    likeMatch (v ++ ps) s = true ↔
      ∃ t₁ t₂, s = t₁ ++ t₂ ∧ lowerL t₁ = lowerL v ∧ likeMatch ps t₂ = true := by
  induction v generalizing s with
  | nil =>
    simp only [List.nil_append]
    constructor
    · intro h
      exact ⟨[], s, by simp, by simp, h⟩
    · rintro ⟨t₁, t₂, hs, ht₁, hm⟩
      simp only [lowerL, List.map_nil, List.map_eq_nil_iff] at ht₁
      subst ht₁
      simpa [hs] using hm
  | cons a v ih =>
    obtain ⟨ha1, ha2, ha3⟩ := hv a (by simp)
    have hv' : ∀ c ∈ v, c ≠ '%' ∧ c ≠ '_' ∧ c ≠ '\\' :=
      fun c hc => hv c (by simp [hc])
    cases s with
    | nil =>
      rw [List.cons_append, likeMatch_plain_nil _ _ ha1 ha3]
      constructor
      · intro h
        exact absurd h (by simp)
      · rintro ⟨t₁, t₂, hs, ht₁, hm⟩
        have : t₁ = [] ∧ t₂ = [] := by
          constructor
          · cases t₁ with
            | nil => rfl
            | cons x xs => simp at hs
          · cases t₂ with
            | nil => rfl
            | cons x xs => cases t₁ <;> simp at hs
        obtain ⟨h1, _⟩ := this
        subst h1
        simp [lowerL] at ht₁
    | cons c s' =>
      have step : likeMatch ((a :: v) ++ ps) (c :: s') = true ↔
          (a.toLower = c.toLower ∧ likeMatch (v ++ ps) s' = true) := by
        rw [List.cons_append, likeMatch_plain_cons _ _ _ _ ha1 ha3,
          if_neg ha2]
        simp
      rw [step, ih hv']
      constructor
      · rintro ⟨hac, t₁, t₂, hs, ht₁, hm⟩
        refine ⟨c :: t₁, t₂, by simp [hs], ?_, hm⟩
        simp only [lowerL, List.map_cons] at ht₁ ⊢
        rw [ht₁, hac]
      · rintro ⟨t₁, t₂, hs, ht₁, hm⟩
        cases t₁ with
        | nil => simp [lowerL] at ht₁
        | cons x t₁' =>
          simp only [List.cons_append, List.cons.injEq] at hs
          obtain ⟨hx, hs'⟩ := hs
          subst hx
          simp only [lowerL, List.map_cons, List.cons.injEq] at ht₁
          obtain ⟨hxc, ht₁'⟩ := ht₁
          exact ⟨by rw [← hxc], t₁', t₂, hs', ht₁', hm⟩

/-- The heart of the C4 analysis: on a wildcard-free value `v`, the pattern
`%v%` matches a subject under case-insensitive LIKE exactly when the subject
contains `v` as a case-insensitive substring. -/
theorem likeMatch_substring (v s : List Char)
    (hv : ∀ c ∈ v, c ≠ '%' ∧ c ≠ '_' ∧ c ≠ '\\') :
    likeMatch ('%' :: (v ++ ['%'])) s = true ↔ lowerL v <:+: lowerL s := by
  rw [likeMatch_pct_cons]
  constructor
  · rintro ⟨t, ⟨u, hu⟩, hm⟩
    rw [likeMatch_append_wcFree v hv] at hm
    obtain ⟨t₁, t₂, ht, ht₁, _⟩ := hm
    refine ⟨lowerL u, lowerL t₂, ?_⟩
    rw [← ht₁]
    simp only [lowerL, ← List.map_append]
    rw [List.append_assoc, ← ht, hu]
  · rintro ⟨p, q, hpq⟩
    refine ⟨(s.drop p.length),
      ⟨s.take p.length, List.take_append_drop _ _⟩, ?_⟩
    rw [likeMatch_append_wcFree v hv]
    refine ⟨(s.drop p.length).take v.length, (s.drop p.length).drop v.length,
      (List.take_append_drop _ _).symm, ?_, likeMatch_pct_single _⟩
    have hlen : (lowerL s).drop p.length = lowerL v ++ q := by
      rw [← hpq, List.append_assoc, List.drop_left]
    have : ((lowerL s).drop p.length).take v.length = lowerL v := by
      rw [hlen]
      have : v.length = (lowerL v).length := by simp [lowerL]
      rw [this, List.take_left]
    rw [← this]
    simp [lowerL, List.map_take, List.map_drop]

/-- For wildcard-free `v`, `subject ILIKE '%v%'` is exactly case-insensitive
substring containment. -/
theorem ilike_eq_containsCI (subj v : String) (hv : wildcardFree v) :
    ilike subj ("%" ++ v ++ "%") = true ↔ containsCI subj v := by
  have hdata : ("%" ++ v ++ "%").data = '%' :: (v.data ++ ['%']) := by
    simp [String.data_append]
  rw [ilike, hdata]
  exact likeMatch_substring v.data subj.data hv

/-! ### Enrichment task lemmas -/

/-- Any two enrichment goroutine bodies commute: each one only writes its own
field (or nothing), and the written value does not depend on the record. -/
theorem runTask_comm (env : EnrichOutcome) (t₁ t₂ : Task) (p : Person) :
    runTask env t₂ (runTask env t₁ p) = runTask env t₁ (runTask env t₂ p) := by
  rcases env with ⟨ea, eg, en⟩
  cases t₁ <;> cases t₂ <;> cases ea <;> cases eg <;> cases en <;> rfl

/-- The merged record after the barrier does not depend on the goroutines'
completion order. -/
theorem runTasks_perm (env : EnrichOutcome) {sched : List Task}
    (hsched : sched.Perm [Task.age, Task.gender, Task.nationality])
    (p : Person) :
    runTasks env sched p = mergeEnrichment env p :=
  hsched.foldl_eq' (fun x _ y _ z => runTask_comm env x y z) p

theorem mergeEnrichment_age (env : EnrichOutcome) (p : Person) :
    (mergeEnrichment env p).age =
      match env.age with | .ok a => a | .error _ => p.age := by
  rcases env with ⟨ea, eg, en⟩
  cases ea <;> cases eg <;> cases en <;> rfl

theorem mergeEnrichment_gender (env : EnrichOutcome) (p : Person) :
    (mergeEnrichment env p).gender =
      match env.gender with | .ok g => g | .error _ => p.gender := by
  rcases env with ⟨ea, eg, en⟩
  cases ea <;> cases eg <;> cases en <;> rfl

theorem mergeEnrichment_nationality (env : EnrichOutcome) (p : Person) :
    (mergeEnrichment env p).nationality =
      match env.nationality with | .ok n => n | .error _ => p.nationality := by
  rcases env with ⟨ea, eg, en⟩
  cases ea <;> cases eg <;> cases en <;> rfl

/-- The enrichment goroutines never touch the identity fields, the names, or
the patronymic. -/
theorem mergeEnrichment_preserves (env : EnrichOutcome) (p : Person) :
    (mergeEnrichment env p).name = p.name ∧
    (mergeEnrichment env p).surname = p.surname ∧
    (mergeEnrichment env p).patronymic = p.patronymic ∧
    (mergeEnrichment env p).id = p.id ∧
    (mergeEnrichment env p).createdAt = p.createdAt := by
  rcases env with ⟨ea, eg, en⟩
  cases ea <;> cases eg <;> cases en <;> exact ⟨rfl, rfl, rfl, rfl, rfl⟩

/-! ## Claim theorems -/

/-- A sample enrichment outcome with one failed lookup, used by witnesses. -/
def envW : EnrichOutcome :=
  ⟨.ok 33, .error "genderize returned status: 500", .ok "ru"⟩

/-- A sample repository state used by witnesses. -/
def stW : RepoState := ⟨1, 50, []⟩

/-- Claim C1: for every Create call with non-empty name and surname, failure of
any subset of the enrichment lookups does not cause Create to fail: each
failed lookup leaves only its own field at its zero value, each successful
lookup's result is merged independently of the other two, and Create still
persists the record and returns the generated identifier. -/
theorem create_partial_enrichment (env : EnrichOutcome) (sched : List Task)
    (st : RepoState) (req : CreatePersonRequest)
    (hsched : sched.Perm [Task.age, Task.gender, Task.nationality])
    (hn : req.name ≠ "") (hs : req.surname ≠ "") :
    ∃ row,
      (serviceCreate env sched st (mkCreatePerson req)).1 =
        .ok (st.nextId,
          { nextId := st.nextId + 1, clock := st.clock,
            rows := st.rows ++ [row] }) ∧
      row.name = req.name ∧
      row.surname = req.surname ∧
      row.id = st.nextId ∧
      row.age = (match env.age with | .ok a => a | .error _ => 0) ∧
      row.gender = (match env.gender with | .ok g => g | .error _ => "") ∧
      row.nationality =
        (match env.nationality with | .ok n => n | .error _ => "") := by
  have hmerge := runTasks_perm env hsched (mkCreatePerson req)
  refine ⟨{ mergeEnrichment env (mkCreatePerson req) with
            id := st.nextId, createdAt := st.clock },
    ?_, ?_, ?_, rfl, ?_, ?_, ?_⟩
  · simp only [serviceCreate]
    rw [if_neg (by simp [mkCreatePerson, hn, hs])]
    simp only [repoCreate, insertedRow, hmerge]
  · exact (mergeEnrichment_preserves env (mkCreatePerson req)).1
  · exact (mergeEnrichment_preserves env (mkCreatePerson req)).2.1
  · rw [show ({ mergeEnrichment env (mkCreatePerson req) with
        id := st.nextId, createdAt := st.clock } : Person).age =
        (mergeEnrichment env (mkCreatePerson req)).age from rfl,
      mergeEnrichment_age]
    cases env.age <;> rfl
  · rw [show ({ mergeEnrichment env (mkCreatePerson req) with
        id := st.nextId, createdAt := st.clock } : Person).gender =
        (mergeEnrichment env (mkCreatePerson req)).gender from rfl,
      mergeEnrichment_gender]
    cases env.gender <;> rfl
  · rw [show ({ mergeEnrichment env (mkCreatePerson req) with
        id := st.nextId, createdAt := st.clock } : Person).nationality =
        (mergeEnrichment env (mkCreatePerson req)).nationality from rfl,
      mergeEnrichment_nationality]
    cases env.nationality <;> rfl

/-- Witness for `create_partial_enrichment`: a Create with a failed gender
lookup, run with a non-canonical completion order. -/
theorem create_partial_enrichment_witness :
    ([Task.gender, Task.age, Task.nationality].Perm
      [Task.age, Task.gender, Task.nationality]) ∧
    ("Ivan" : String) ≠ "" ∧ ("Petrov" : String) ≠ "" ∧
    ∃ row,
      (serviceCreate envW [Task.gender, Task.age, Task.nationality] stW
        (mkCreatePerson ⟨"Ivan", "Petrov", ""⟩)).1 =
        .ok (stW.nextId,
          { nextId := stW.nextId + 1, clock := stW.clock,
            rows := stW.rows ++ [row] }) ∧
      row.name = "Ivan" ∧
      row.surname = "Petrov" ∧
      row.id = stW.nextId ∧
      row.age = (match envW.age with | .ok a => a | .error _ => 0) ∧
      row.gender = (match envW.gender with | .ok g => g | .error _ => "") ∧
      row.nationality =
        (match envW.nationality with | .ok n => n | .error _ => "") :=
  ⟨by decide, by decide, by decide,
   create_partial_enrichment envW _ stW ⟨"Ivan", "Petrov", ""⟩
     (by decide) (by decide) (by decide)⟩

/-- Claim C2: for every Create call in which name or surname is empty, Create
returns a validation error with no side effect: no enrichment lookup is
issued and the store's Create is never called. -/
theorem create_validation_blocks (env : EnrichOutcome) (sched : List Task)
    (st : RepoState) (p : Person) (h : p.name = "" ∨ p.surname = "") :
    serviceCreate env sched st p =
      (.error (.msg "name and surname are required"), []) ∧
    Effect.storeCreate ∉ (serviceCreate env sched st p).2 ∧
    Effect.lookupAge ∉ (serviceCreate env sched st p).2 ∧
    Effect.lookupGender ∉ (serviceCreate env sched st p).2 ∧
    Effect.lookupNationality ∉ (serviceCreate env sched st p).2 := by
  have heq : serviceCreate env sched st p =
      (.error (.msg "name and surname are required"), []) := by
    simp only [serviceCreate]
    rw [if_pos h]
  exact ⟨heq, by simp [heq], by simp [heq], by simp [heq], by simp [heq]⟩

/-- Witness for `create_validation_blocks`: empty name. -/
theorem create_validation_blocks_witness :
    (("" : String) = "" ∨ ("Petrov" : String) = "") ∧
    serviceCreate envW [Task.age, Task.gender, Task.nationality] stW
      { id := 0, name := "", surname := "Petrov", patronymic := none,
        age := 0, gender := "", nationality := "", createdAt := 0 } =
      (.error (.msg "name and surname are required"), []) :=
  ⟨Or.inl rfl,
   (create_validation_blocks envW [Task.age, Task.gender, Task.nationality] stW
      { id := 0, name := "", surname := "Petrov", patronymic := none,
        age := 0, gender := "", nationality := "", createdAt := 0 }
      (Or.inl rfl)).1⟩

/-- Claim C6: during Create the three enrichment lookups run as concurrent
tasks writing disjoint fields; the orchestrating call blocks on the
`WaitGroup` barrier until all three completed before the merged record is
read by the persistence call — in particular the merged record is the same
for every completion order, and the first lookup to complete never cancels or
short-circuits the others (all three lookups appear in the trace). -/
theorem create_fanout_barrier (env : EnrichOutcome) (sched : List Task)
    (st : RepoState) (p : Person)
    (hsched : sched.Perm [Task.age, Task.gender, Task.nationality])
    (hn : p.name ≠ "") (hs : p.surname ≠ "") :
    runTasks env sched p = mergeEnrichment env p ∧
    (serviceCreate env sched st p).1 =
      .ok (repoCreate st (mergeEnrichment env p)) ∧
    (serviceCreate env sched st p).2 =
      sched.map taskEffect ++ [Effect.storeCreate] ∧
    Effect.lookupAge ∈ (serviceCreate env sched st p).2 ∧
    Effect.lookupGender ∈ (serviceCreate env sched st p).2 ∧
    Effect.lookupNationality ∈ (serviceCreate env sched st p).2 := by
  have hmerge := runTasks_perm env hsched p
  have hif : ¬ (p.name = "" ∨ p.surname = "") := by simp [hn, hs]
  have htrace : (serviceCreate env sched st p).2 =
      sched.map taskEffect ++ [Effect.storeCreate] := by
    simp only [serviceCreate]
    rw [if_neg hif]
  have hmem : ∀ t : Task, t ∈ sched := fun t =>
    hsched.mem_iff.mpr (by cases t <;> simp)
  refine ⟨hmerge, ?_, htrace, ?_, ?_, ?_⟩
  · simp only [serviceCreate]
    rw [if_neg hif, hmerge]
  · rw [htrace]
    exact List.mem_append_left _ (List.mem_map_of_mem taskEffect (hmem .age))
  · rw [htrace]
    exact List.mem_append_left _ (List.mem_map_of_mem taskEffect (hmem .gender))
  · rw [htrace]
    exact List.mem_append_left _
      (List.mem_map_of_mem taskEffect (hmem .nationality))

/-- Witness for `create_fanout_barrier`: tasks completing in reverse order
still yield the canonical merged record. -/
theorem create_fanout_barrier_witness :
    ([Task.nationality, Task.gender, Task.age].Perm
      [Task.age, Task.gender, Task.nationality]) ∧
    ("Anna" : String) ≠ "" ∧ ("Ivanova" : String) ≠ "" ∧
    runTasks envW [Task.nationality, Task.gender, Task.age]
        { id := 0, name := "Anna", surname := "Ivanova", patronymic := none,
          age := 0, gender := "", nationality := "", createdAt := 0 } =
      mergeEnrichment envW
        { id := 0, name := "Anna", surname := "Ivanova", patronymic := none,
          age := 0, gender := "", nationality := "", createdAt := 0 } :=
  ⟨by decide, by decide, by decide,
   (create_fanout_barrier envW [Task.nationality, Task.gender, Task.age] stW
      { id := 0, name := "Anna", surname := "Ivanova", patronymic := none,
        age := 0, gender := "", nationality := "", createdAt := 0 }
      (by decide) (by decide) (by decide)).1⟩

/-- Claim C5: for every identifier with no corresponding row, `GetById` returns
the distinguished not-found condition (`repository.ErrNotFound`, raised on
zero rows), `Update` and `Delete` return the same condition on zero rows
affected; the service layer propagates this condition unchanged (so callers
can test it with `errors.Is`), while every other storage failure is wrapped
and surfaced as a generic error. -/
theorem notFound_distinguished :
    (∀ (table : List Person) (id : Int), (∀ r ∈ table, r.id ≠ id) →
      repoGetById (dbGetById table id) = .error .notFound) ∧
    (∀ (table : List Person) (id : Int) (p : Person),
      (∀ r ∈ table, r.id ≠ id) → repoUpdate table id p = .error .notFound) ∧
    (∀ (table : List Person) (id : Int), (∀ r ∈ table, r.id ≠ id) →
      repoDelete table id = .error .notFound) ∧
    (∀ e : GoErr, errorsIs e .notFound = true →
      serviceGetById (.error e) = .error e ∧
      serviceUpdate (.error e) = .error e ∧
      serviceDelete (.error e) = .error e) ∧
    (∀ e : GoErr, errorsIs e .notFound = false →
      serviceGetById (.error e) = .error (.wrap "failed to get person" e) ∧
      serviceUpdate (.error e) = .error (.wrap "failed to update person" e) ∧
      serviceDelete (.error e) = .error (.wrap "failed to delete person" e) ∧
      errorsIs (GoErr.wrap "failed to get person" e) .notFound = false) := by
  refine ⟨?_, ?_, ?_, ?_, ?_⟩
  · intro table id h
    have hfind : table.find? (fun r => r.id == id) = none :=
      List.find?_eq_none.mpr (fun r hr => by simp [h r hr])
    simp [repoGetById, dbGetById, hfind, errorsIs]
  · intro table id p h
    have hfilter : table.filter (fun r => r.id == id) = [] :=
      List.filter_eq_nil_iff.mpr (fun r hr => by simp [h r hr])
    simp [repoUpdate, hfilter]
  · intro table id h
    have hfilter : table.filter (fun r => r.id == id) = [] :=
      List.filter_eq_nil_iff.mpr (fun r hr => by simp [h r hr])
    simp [repoDelete, hfilter]
  · intro e h
    refine ⟨?_, ?_, ?_⟩ <;>
      simp [serviceGetById, serviceUpdate, serviceDelete, serviceTranslate, h]
  · intro e h
    refine ⟨?_, ?_, ?_, ?_⟩ <;>
      simp [serviceGetById, serviceUpdate, serviceDelete, serviceTranslate,
        errorsIs, h]

/-- Witness for `notFound_distinguished`: a missing row is reported as
not-found; a wrapped not-found survives `errors.Is`; an unrelated error is
wrapped as a generic failure. -/
theorem notFound_distinguished_witness :
    (∀ r ∈ ([{ id := 1, name := "a", surname := "b", patronymic := none,
               age := 0, gender := "", nationality := "", createdAt := 0 }] :
        List Person), r.id ≠ 7) ∧
    repoGetById
      (dbGetById
        [{ id := 1, name := "a", surname := "b", patronymic := none,
           age := 0, gender := "", nationality := "", createdAt := 0 }] 7) =
      .error .notFound ∧
    errorsIs (.wrap "outer" .notFound) .notFound = true ∧
    serviceGetById (.error (.wrap "outer" .notFound)) =
      .error (.wrap "outer" .notFound) ∧
    errorsIs (.msg "connection reset") .notFound = false ∧
    serviceGetById (.error (.msg "connection reset")) =
      .error (.wrap "failed to get person" (.msg "connection reset")) :=
  ⟨by decide,
   notFound_distinguished.1 _ 7 (by decide),
   by decide,
   (notFound_distinguished.2.2.2.1 _ (by decide)).1,
   by decide,
   (notFound_distinguished.2.2.2.2 _ (by decide)).1⟩

/-- Claim C7 (counterexample): an Update through the handler on existing id 5
replaces every mutable field in the store, but the record the operation
returns is not the stored final state: the response echoes the record built
from the request, whose `id` is 0 and `createdAt` is zero, while the stored
row keeps `id = 5` and its original `created_at`. -/
theorem update_echo_not_stored_state :
    (handlerUpdate
      [{ id := 5, name := "Ann", surname := "Lee", patronymic := none,
         age := 30, gender := "female", nationality := "US", createdAt := 100 }]
      5
      { name := "Bob", surname := "Ray", patronymic := "", age := 20,
        gender := "male", nationality := "GB" }).2 =
      [{ id := 5, name := "Bob", surname := "Ray", patronymic := none,
         age := 20, gender := "male", nationality := "GB", createdAt := 100 }] ∧
    (handlerUpdate
      [{ id := 5, name := "Ann", surname := "Lee", patronymic := none,
         age := 30, gender := "female", nationality := "US", createdAt := 100 }]
      5
      { name := "Bob", surname := "Ray", patronymic := "", age := 20,
        gender := "male", nationality := "GB" }).1 =
      .ok { id := 0, name := "Bob", surname := "Ray", patronymic := none,
            age := 20, gender := "male", nationality := "GB", createdAt := 0 } ∧
    ({ id := 0, name := "Bob", surname := "Ray", patronymic := none,
       age := 20, gender := "male", nationality := "GB",
       createdAt := 0 } : Person) ≠
      { id := 5, name := "Bob", surname := "Ray", patronymic := none,
        age := 20, gender := "male", nationality := "GB", createdAt := 100 } :=
  ⟨by decide, by decide, by decide⟩

/-- Claim C7 (amended): for every Update on an existing identifier, every
mutable field (name, surname, patronymic, age, gender, nationality) of the
stored row is replaced with the caller-supplied value — fields the caller
omits become zero-valued, since Update is a full replace — and the operation
returns a record carrying exactly the caller-supplied mutable values (which
therefore coincide with the stored final state on every mutable field,
though the echoed record carries a zero `id`/`createdAt`, not the stored
ones); Update on a non-existent identifier returns not-found and performs no
write. -/
theorem handlerUpdate_full_replace (table : List Person) (id : Int)
    (req : UpdatePersonRequest) :
    ((∃ r ∈ table, r.id = id) →
      (handlerUpdate table id req).1 = .ok (mkUpdatePerson req) ∧
      (handlerUpdate table id req).2 =
        table.map (fun r =>
          if r.id == id then applyUpdate r (mkUpdatePerson req) else r) ∧
      (∀ r ∈ table, r.id = id →
        applyUpdate r (mkUpdatePerson req) =
          { r with name := req.name, surname := req.surname,
                   patronymic := patronymicPtr req.patronymic,
                   age := req.age, gender := req.gender,
                   nationality := req.nationality }) ∧
      (mkUpdatePerson req).name = req.name ∧
      (mkUpdatePerson req).surname = req.surname ∧
      (mkUpdatePerson req).patronymic = patronymicPtr req.patronymic ∧
      (mkUpdatePerson req).age = req.age ∧
      (mkUpdatePerson req).gender = req.gender ∧
      (mkUpdatePerson req).nationality = req.nationality) ∧
    ((∀ r ∈ table, r.id ≠ id) →
      (handlerUpdate table id req).1 = .error .notFound ∧
      (handlerUpdate table id req).2 = table) := by
  constructor
  · rintro ⟨r, hr, hid⟩
    have hmem : r ∈ table.filter (fun x => x.id == id) :=
      List.mem_filter.mpr ⟨hr, by simp [hid]⟩
    have hlen : (table.filter (fun x => x.id == id)).length ≠ 0 := by
      intro h0
      rw [List.length_eq_zero] at h0
      rw [h0] at hmem
      exact (List.not_mem_nil r) hmem
    have hrepo : repoUpdate table id (mkUpdatePerson req) =
        .ok (table.map (fun x =>
          if x.id == id then applyUpdate x (mkUpdatePerson req) else x)) := by
      simp only [repoUpdate]
      rw [if_neg (by simpa using hlen)]
    refine ⟨?_, ?_, ?_, rfl, rfl, rfl, rfl, rfl, rfl⟩
    · simp [handlerUpdate, hrepo, serviceUpdate, serviceTranslate]
    · simp [handlerUpdate, hrepo, serviceUpdate, serviceTranslate]
    · intro x _ hx
      simp [applyUpdate, mkUpdatePerson]
  · intro h
    have hfilter : table.filter (fun r => r.id == id) = [] :=
      List.filter_eq_nil_iff.mpr (fun r hr => by simp [h r hr])
    have hrepo : repoUpdate table id (mkUpdatePerson req) = .error .notFound := by
      simp [repoUpdate, hfilter]
    constructor <;>
      simp [handlerUpdate, hrepo, serviceUpdate, serviceTranslate, errorsIs]

/-- Witness for `handlerUpdate_full_replace`: both the existing-row branch
and the missing-row branch at concrete inputs. -/
theorem handlerUpdate_full_replace_witness :
    (∃ r ∈ ([{ id := 5, name := "Ann", surname := "Lee", patronymic := none,
               age := 30, gender := "female", nationality := "US",
               createdAt := 100 }] : List Person), r.id = 5) ∧
    (handlerUpdate
      [{ id := 5, name := "Ann", surname := "Lee", patronymic := none,
         age := 30, gender := "female", nationality := "US", createdAt := 100 }]
      5
      { name := "Bob", surname := "Ray", patronymic := "Olegovich", age := 20,
        gender := "male", nationality := "GB" }).1 =
      .ok (mkUpdatePerson
        { name := "Bob", surname := "Ray", patronymic := "Olegovich", age := 20,
          gender := "male", nationality := "GB" }) ∧
    (∀ r ∈ ([{ id := 5, name := "Ann", surname := "Lee", patronymic := none,
               age := 30, gender := "female", nationality := "US",
               createdAt := 100 }] : List Person), r.id ≠ 9) ∧
    (handlerUpdate
      [{ id := 5, name := "Ann", surname := "Lee", patronymic := none,
         age := 30, gender := "female", nationality := "US", createdAt := 100 }]
      9
      { name := "Bob", surname := "Ray", patronymic := "Olegovich", age := 20,
        gender := "male", nationality := "GB" }).1 = .error .notFound :=
  ⟨⟨{ id := 5, name := "Ann", surname := "Lee", patronymic := none,
      age := 30, gender := "female", nationality := "US", createdAt := 100 },
    List.mem_singleton_self _, rfl⟩,
   ((handlerUpdate_full_replace _ 5 _).1
     ⟨{ id := 5, name := "Ann", surname := "Lee", patronymic := none,
        age := 30, gender := "female", nationality := "US", createdAt := 100 },
      List.mem_singleton_self _, rfl⟩).1,
   by decide,
   ((handlerUpdate_full_replace _ 9 _).2 (by decide)).1⟩

/-- Claim C9: the optional patronymic is mapped distinctly between absent and
present: in every `GetAll` row a database NULL becomes an absent (nil)
patronymic and a non-NULL value (even the empty string) a present one; and a
record created through the API never stores patronymic as a present empty
string, because an empty input is converted to absent before persistence. -/
theorem patronymic_absent_vs_present (dbv : Option String)
    (env : EnrichOutcome) (sched : List Task) (st : RepoState)
    (req : CreatePersonRequest)
    (hsched : sched.Perm [Task.age, Task.gender, Task.nationality])
    (hn : req.name ≠ "") (hs : req.surname ≠ "") :
    scannedPatronymic none = none ∧
    (∀ v, scannedPatronymic (some v) = some v) ∧
    scannedPatronymic (some "") ≠ none ∧
    scannedPatronymic dbv = dbv ∧
    ∀ id st',
      (serviceCreate env sched st (mkCreatePerson req)).1 = .ok (id, st') →
      ∃ row, st'.rows = st.rows ++ [row] ∧
        row.patronymic = patronymicPtr req.patronymic ∧
        row.patronymic ≠ some "" := by
  refine ⟨rfl, fun v => rfl, by simp [scannedPatronymic, scanNullString],
    by cases dbv <;> rfl, ?_⟩
  intro id st' hok
  simp only [serviceCreate] at hok
  rw [if_neg (by simp [mkCreatePerson, hn, hs])] at hok
  simp only [repoCreate] at hok
  injection hok with hpair
  have hst : st'.rows = st.rows ++
      [insertedRow st (runTasks env sched (mkCreatePerson req))] :=
    (congrArg (fun x => x.2.rows) hpair).symm
  refine ⟨_, hst, ?_, ?_⟩
  · show (runTasks env sched (mkCreatePerson req)).patronymic =
      patronymicPtr req.patronymic
    rw [runTasks_perm env hsched]
    exact (mergeEnrichment_preserves env (mkCreatePerson req)).2.2.1
  · show (runTasks env sched (mkCreatePerson req)).patronymic ≠ some ""
    rw [runTasks_perm env hsched]
    rw [(mergeEnrichment_preserves env (mkCreatePerson req)).2.2.1]
    show patronymicPtr req.patronymic ≠ some ""
    unfold patronymicPtr
    split
    · simp
    · simp_all

/-- Witness for `patronymic_absent_vs_present`: a present empty string from
the database stays present, and an API-created record with empty patronymic
input stores an absent patronymic. -/
theorem patronymic_absent_vs_present_witness :
    ([Task.age, Task.gender, Task.nationality].Perm
      [Task.age, Task.gender, Task.nationality]) ∧
    ("Ivan" : String) ≠ "" ∧ ("Petrov" : String) ≠ "" ∧
    scannedPatronymic (some "") ≠ none ∧
    scannedPatronymic (some "X") = some "X" :=
  ⟨List.Perm.refl _, by decide, by decide,
   (patronymic_absent_vs_present (some "X") envW
      [Task.age, Task.gender, Task.nationality] stW ⟨"Ivan", "Petrov", ""⟩
      (List.Perm.refl _) (by decide) (by decide)).2.2.1,
   (patronymic_absent_vs_present (some "X") envW
      [Task.age, Task.gender, Task.nationality] stW ⟨"Ivan", "Petrov", ""⟩
      (List.Perm.refl _) (by decide) (by decide)).2.2.2.1⟩

/-- The function `parseFilters` succeeds whenever the `age` parameter is absent, empty, or
numeric. -/
theorem parseFilters_ok_of_age (q : GetAllQuery)
    (h : queryStr q.age = "" ∨ (atoi (queryStr q.age)).isSome) :
    ∃ f, parseFilters q = .ok f := by
  have hage : ∃ ageF, parseAgeFilter q = .ok ageF := by
    unfold parseAgeFilter
    rcases h with hage | hsome
    · rw [if_pos hage]
      exact ⟨_, rfl⟩
    · obtain ⟨a, ha⟩ := Option.isSome_iff_exists.mp hsome
      by_cases hempty : queryStr q.age = ""
      · rw [if_pos hempty]
        exact ⟨_, rfl⟩
      · rw [if_neg hempty, ha]
        exact ⟨_, rfl⟩
  obtain ⟨ageF, hageF⟩ := hage
  exact ⟨_, by rw [parseFilters, hageF]⟩

/-- The function `parseFilters` fails (with the client error) exactly on a non-empty,
non-numeric `age` parameter. -/
theorem parseFilters_err_of_age (q : GetAllQuery)
    (h1 : queryStr q.age ≠ "") (h2 : atoi (queryStr q.age) = none) :
    parseFilters q = .error "Invalid age format" := by
  have hage : parseAgeFilter q = .error "Invalid age format" := by
    unfold parseAgeFilter
    rw [if_neg h1, h2]
  rw [parseFilters, hage]

/-- Claim C10: for every `GET /api/people` request, a non-numeric or
out-of-range `page` or `page_size` value never causes a failure: the handler
silently substitutes the defaults (page → 1, page_size → 10), clamps
`page_size` above 100 down to 100, and proceeds; only a non-empty,
non-numeric `age` filter value makes the request fail with a client error
before the service is invoked. -/
theorem handlerGetAll_lenient_pagination (table : List Person)
    (q : GetAllQuery) :
    (1 ≤ parsePage q) ∧
    (1 ≤ parsePageSize q ∧ parsePageSize q ≤ 100) ∧
    (atoi (defaultQuery q.page "1") = none → parsePage q = 1) ∧
    (∀ n, atoi (defaultQuery q.page "1") = some n → n < 1 →
      parsePage q = 1) ∧
    (atoi (defaultQuery q.page_size "10") = none → parsePageSize q = 10) ∧
    (∀ n, atoi (defaultQuery q.page_size "10") = some n → n < 1 →
      parsePageSize q = 10) ∧
    (∀ n, atoi (defaultQuery q.page_size "10") = some n → 100 < n →
      parsePageSize q = 100) ∧
    ((queryStr q.age = "" ∨ (atoi (queryStr q.age)).isSome) →
      ∃ f, parseFilters q = .ok f ∧
        handlerGetAll table q =
          (.ok (serviceGetAll table f (parsePage q) (parsePageSize q)).1
            (parsePage q) (parsePageSize q)
            (serviceGetAll table f (parsePage q) (parsePageSize q)).2,
           true)) ∧
    (queryStr q.age ≠ "" → atoi (queryStr q.age) = none →
      handlerGetAll table q = (.badRequest "Invalid age format", false)) := by
  have hraw : (1 : Int) ≤ parsePageSizeRaw q := by
    unfold parsePageSizeRaw
    cases atoi (defaultQuery q.page_size "10") with
    | none => decide
    | some n =>
      show (1 : Int) ≤ if n < 1 then 10 else n
      split <;> omega
  refine ⟨?_, ⟨?_, ?_⟩, ?_, ?_, ?_, ?_, ?_, ?_, ?_⟩
  · unfold parsePage
    cases atoi (defaultQuery q.page "1") with
    | none => decide
    | some n =>
      show (1 : Int) ≤ if n < 1 then 1 else n
      split <;> omega
  · unfold parsePageSize
    split <;> omega
  · unfold parsePageSize
    split <;> omega
  · intro h
    unfold parsePage
    rw [h]
  · intro n h hlt
    unfold parsePage
    rw [h]
    show (if n < 1 then 1 else n) = 1
    rw [if_pos hlt]
  · intro h
    unfold parsePageSize parsePageSizeRaw
    rw [h]
    decide
  · intro n h hlt
    unfold parsePageSize parsePageSizeRaw
    rw [h]
    show (if (if n < 1 then 10 else n) > 100 then 100
          else if n < 1 then 10 else n) = 10
    rw [if_pos hlt]
    decide
  · intro n h hlt
    unfold parsePageSize parsePageSizeRaw
    rw [h]
    show (if (if n < 1 then 10 else n) > 100 then 100
          else if n < 1 then 10 else n) = 100
    have hrawn : (if n < 1 then (10 : Int) else n) = n := if_neg (by omega)
    rw [hrawn, if_pos hlt]
  · intro h
    obtain ⟨f, hf⟩ := parseFilters_ok_of_age q h
    exact ⟨f, hf, by simp [handlerGetAll, hf]⟩
  · intro h1 h2
    simp [handlerGetAll, parseFilters_err_of_age q h1 h2]

/-- Witness for `handlerGetAll_lenient_pagination`: garbage and oversized
pagination values are tolerated (an out-of-int-range page size overflows
`strconv.Atoi` and falls back to the default 10), while a non-numeric or
out-of-range age is a client error issued without invoking the service. -/
theorem handlerGetAll_lenient_pagination_witness :
    atoi "99999999999999999999" = none ∧
    parsePageSize { page := none, page_size := some "99999999999999999999",
                    name := none, surname := none, age := none,
                    gender := none, nationality := none } = 10 ∧
    handlerGetAll []
      { page := none, page_size := none, name := none, surname := none,
        age := some "99999999999999999999", gender := none,
        nationality := none } =
      (.badRequest "Invalid age format", false) ∧
    parsePage { page := some "abc", page_size := some "500", name := none,
                surname := none, age := none, gender := none,
                nationality := none } = 1 ∧
    parsePageSize { page := some "abc", page_size := some "500", name := none,
                    surname := none, age := none, gender := none,
                    nationality := none } = 100 ∧
    handlerGetAll []
      { page := none, page_size := none, name := none, surname := none,
        age := some "x1", gender := none, nationality := none } =
      (.badRequest "Invalid age format", false) := by
  refine ⟨by decide, ?_, ?_, ?_, by decide, ?_⟩
  · exact (handlerGetAll_lenient_pagination []
      { page := none, page_size := some "99999999999999999999",
        name := none, surname := none, age := none, gender := none,
        nationality := none }).2.2.2.2.1 (by decide)
  · exact (handlerGetAll_lenient_pagination []
      { page := none, page_size := none, name := none, surname := none,
        age := some "99999999999999999999", gender := none,
        nationality := none }).2.2.2.2.2.2.2.2 (by decide) (by decide)
  · exact (handlerGetAll_lenient_pagination []
      { page := some "abc", page_size := some "500", name := none,
        surname := none, age := none, gender := none,
        nationality := none }).2.2.1 (by decide)
  · exact (handlerGetAll_lenient_pagination []
      { page := none, page_size := none, name := none, surname := none,
        age := some "x1", gender := none,
        nationality := none }).2.2.2.2.2.2.2.2 (by decide) (by decide)

/-- Claim C3: for every filter set, the two queries built by the store's
`GetAll` share exactly the same filter predicates and the same predicate
arguments; the selection query additionally orders by creation time
descending and applies `LIMIT`/`OFFSET` after all predicates, while the count
query has no ordering, limit, or offset — so the returned total equals the
number of rows matching the filters regardless of the pagination window. -/
theorem getAll_count_select_consistent (f : Filters) (limit offset : Int)
    (table : List Person) :
    (countSpec f).conds = (selectSpec f limit offset).conds ∧
    selectArgs f limit offset = condArgs f ++ [.i limit, .i offset] ∧
    selectQueryStr f =
      "SELECT id, name, surname, patronymic, age, gender, nationality, created_at FROM people"
        ++ whereClause f ++ " ORDER BY created_at DESC LIMIT $"
        ++ toString ((buildConds f).length + 1) ++ " OFFSET $"
        ++ toString ((buildConds f).length + 2) ∧
    countQueryStr f = "SELECT COUNT(*) FROM people" ++ whereClause f ∧
    (selectSpec f limit offset).orderByCreatedDesc = true ∧
    (selectSpec f limit offset).limitOffset = some (limit, offset) ∧
    (countSpec f).orderByCreatedDesc = false ∧
    (countSpec f).limitOffset = none ∧
    (repoGetAll table f limit offset).2 = countMatching table f :=
  ⟨rfl, rfl, rfl, rfl, rfl, rfl, rfl, rfl, rfl⟩

/-- Claim C4 (counterexample): the claim that the `name` predicate is a
case-insensitive substring match fails when the filter value contains a SQL
pattern metacharacter: the filter value `"%"` is matched by the built
`ILIKE` predicate against the stored name `"abc"` (and the row is counted by
`GetAll`), yet `"abc"` does not contain the substring `"%"`; likewise the
filter value `"a\b"` matches the stored name `"ab"` (the backslash escapes
the `b`), yet `"ab"` does not contain the substring `"a\b"`. -/
theorem getAll_substring_claim_fails :
    evalConds
        (buildConds { name := some "%", surname := none, age := none,
                      gender := none, nationality := none })
        { id := 1, name := "abc", surname := "s", patronymic := none,
          age := 0, gender := "", nationality := "", createdAt := 0 } = true ∧
    ¬ containsCI "abc" "%" ∧
    (repoGetAll
        [{ id := 1, name := "abc", surname := "s", patronymic := none,
           age := 0, gender := "", nationality := "", createdAt := 0 }]
        { name := some "%", surname := none, age := none,
          gender := none, nationality := none } 10 0).2 = 1 ∧
    evalConds
        (buildConds { name := some "a\\b", surname := none, age := none,
                      gender := none, nationality := none })
        { id := 2, name := "ab", surname := "s", patronymic := none,
          age := 0, gender := "", nationality := "", createdAt := 0 } = true ∧
    ¬ containsCI "ab" "a\\b" :=
  ⟨by decide, by decide, by decide, by decide, by decide⟩

/-- Claim C4 (amended): for every filter set whose string-matched values are
free of the SQL pattern metacharacters `%`, `_` and the escape character
`\`, the predicates built by the store's `GetAll` are: for `name`,
`surname`, `nationality` a case-insensitive substring match, for `age` exact
integer equality, for `gender` exact string equality; present keys combine
with logical AND and absent keys impose no constraint. (Filter values
containing `%`, `_` or `\` are instead interpreted under `ILIKE` pattern
semantics.) -/
theorem getAll_predicate_semantics (f : Filters) (r : Person)
    (hf : f.wcFree) :
    evalConds (buildConds f) r = true ↔ specMatches f r := by
  obtain ⟨hn, hs, hnat⟩ := hf
  rcases f with ⟨fn, fs, fa, fg, fnat⟩
  cases fn <;> cases fs <;> cases fa <;> cases fg <;> cases fnat <;>
    simp_all [buildConds, evalConds, evalPred, specMatches,
      ilike_eq_containsCI, and_assoc, beq_iff_eq]

/-- Witness for `getAll_predicate_semantics` at a concrete filter set and
row: filtering by name `"an"` matches the row named `"Anna"`. -/
theorem getAll_predicate_semantics_witness :
    ({ name := some "an", surname := none, age := some 30, gender := none,
       nationality := none } : Filters).wcFree ∧
    specMatches
      { name := some "an", surname := none, age := some 30, gender := none,
        nationality := none }
      { id := 1, name := "Anna", surname := "Ivanova", patronymic := none,
        age := 30, gender := "female", nationality := "RU", createdAt := 0 } :=
  ⟨by constructor <;> simp [wildcardFree],
   (getAll_predicate_semantics _ _
      (by constructor <;> simp [wildcardFree])).mp (by decide)⟩

/-- Claim C8: for every page and pageSize, the service's `GetAll` normalizes
`page < 1` to 1 and `pageSize < 1` to 10, computes
`offset = (page-1)*pageSize` and `limit = pageSize`, passes the filter set to
the store unmodified, and returns the page of records together with the total
count of records matching the filter set (ignoring the pagination window). -/
theorem serviceGetAll_normalizes (table : List Person) (f : Filters)
    (page pageSize : Int) :
    serviceGetAll table f page pageSize =
      repoGetAll table f (if pageSize < 1 then 10 else pageSize)
        (((if page < 1 then 1 else page) - 1) *
          (if pageSize < 1 then 10 else pageSize)) ∧
    (serviceGetAll table f page pageSize).2 = countMatching table f := by
  constructor
  · rfl
  · rfl

end PersonSvc
